import Mathlib

/-!
Verification of the bq769x0 battery-monitor driver (src/src/lib.rs).

This file gives a shallow embedding of the driver's protocol/encoding core:
the CRC-8 framed register transactions, the ADC transfer function, the
SCD/OCD threshold tables with the Lower/Upper range reconciliation, and the
`init` / measurement entry points of the device session.  Machine integers
are modelled as `Nat`/`Int` with explicit wrapping (`% 2^8`, `% 2^16`,
`% 2^32`) exactly where the Rust code performs a cast or can overflow.
Fallible operations return `Except`; a Rust panic (division by zero,
`unreachable!`) is modelled by an explicit `RtError.panic` value where it is
reachable, and noted in a comment where it is not.
-/

set_option maxRecDepth 40000
set_option maxHeartbeats 1000000

deriving instance DecidableEq for Except

namespace BQ769x0V

/-! ## Rust integer-cast helpers -/

/-- Interpret a byte (`u8` value) as Rust `as i8` does (two's complement). -/
def i8_of_u8 (n : Nat) : Int :=
  if n % 256 < 128 then (n % 256 : Nat) else (n % 256 : Nat) - 256

/-- Interpret a `u32` value as Rust `as i32` does (two's complement). -/
def i32_of_u32 (n : Nat) : Int :=
  if n % 4294967296 < 2147483648 then (n % 4294967296 : Nat)
  else (n % 4294967296 : Nat) - 4294967296

/-- Wrap an unbounded integer into the `i32` range (Rust wrapping semantics). -/
def i32_wrap (x : Int) : Int :=
  (x + 2147483648) % 4294967296 - 2147483648

/-- Truncate an `i32` value to `u16` as Rust `as u16` does. -/
def u16_of_i32 (x : Int) : Nat := (x % 65536).toNat

/-- Truncate an `i32` value to `u32` as Rust `as u32` does. -/
def u32_of_i32 (x : Int) : Nat := (x % 4294967296).toNat

/-- Rust `i32` division truncates toward zero (`Int.tdiv`). -/
def rust_div (a b : Int) : Int := Int.tdiv a b

/-! ## CRC-8 (crc_any `CRCu8::crc8()`: polynomial x^8+x^2+x+1 = 0x07,
initial value 0, no reflection, xorout 0) -/

/-- One shift-and-conditionally-xor round of the CRC-8 bit loop. -/
def crc8_step (c : Nat) : Nat :=
  if c &&& 0x80 ≠ 0 then ((c <<< 1) ^^^ 0x07) % 256 else (c <<< 1) % 256

/-- Digest one byte into a running CRC-8 value. -/
def crc8_update (crc b : Nat) : Nat := crc8_step^[8] ((crc % 256) ^^^ (b % 256))

/-- CRC-8 of a byte sequence, starting from the reset value 0
(`crc.reset(); crc.digest(bytes); crc.get_crc()` in the source). -/
def crc8 (bytes : List Nat) : Nat := bytes.foldl crc8_update 0

/-! ## Error type (`enum Error` in the source).  `RtError` additionally
distinguishes a Rust panic from a returned `Err`. -/

inductive Error
  | CRCMismatch
  | I2CError
  | BufTooLarge
  | Uninitialized
  | VerifyError (reg : Nat)
  | OCDSCDRangeMismatch
  | UVThresholdUnobtainable (lo hi : Nat)
  | OVThresholdUnobtainable (lo hi : Nat)
deriving DecidableEq, Repr

inductive RtError
  | err (e : Error)
  | panic
deriving DecidableEq, Repr

/-! ## OCD/SCD range selection (`enum OCDSCDRange`) -/

inductive OCDSCDRange
  | Lower
  | Upper
  | Unknown
deriving DecidableEq, Repr

/-- `OCDSCDRange::bits`.  The `Unknown` arm is `unreachable!()` in the source
(a panic); `init` never calls `bits` with `Unknown` (see
`rangeToUse_ne_unknown` below), so we map it to 0 here. -/
def OCDSCDRange.bits : OCDSCDRange → Nat
  | .Lower => 0
  | .Upper => 0x80
  | .Unknown => 0

/-! ## SCD threshold table (`enum SCDThreshold`, discriminants = mV values) -/

inductive SCDThreshold
  | _22mV | _33mV | _44mV | _56mV | _67mV | _78mV | _89mV | _100mV
  | _111mV | _133mV | _155mV | _178mV | _200mV
deriving DecidableEq, Repr

/-- Numeric discriminant of each `SCDThreshold` variant (its mV value);
this is what `*t as u8` reads in the source. -/
def SCDThreshold.toMv : SCDThreshold → Nat
  | ._22mV => 22 | ._33mV => 33 | ._44mV => 44 | ._56mV => 56
  | ._67mV => 67 | ._78mV => 78 | ._89mV => 89 | ._100mV => 100
  | ._111mV => 111 | ._133mV => 133 | ._155mV => 155 | ._178mV => 178
  | ._200mV => 200

/-- `SCDThreshold::range`. -/
def SCDThreshold.range : SCDThreshold → OCDSCDRange
  | ._44mV | ._67mV | ._89mV => .Unknown
  | ._111mV | ._133mV | ._155mV | ._178mV | ._200mV => .Upper
  | _ => .Lower

/-- `SCDThreshold::bits`.  The wrong-range fall-through arms return 0 in the
source ("should not happen, 0 to be safe"); the `range = Unknown` arm is
`unreachable!()` in the source and is mapped to 0 (never called by `init`). -/
def SCDThreshold.bits (t : SCDThreshold) (range : OCDSCDRange) : Nat :=
  match range with
  | .Lower =>
    match t with
    | ._22mV => 0x0 | ._33mV => 0x1 | ._44mV => 0x2 | ._56mV => 0x3
    | ._67mV => 0x4 | ._78mV => 0x5 | ._89mV => 0x6 | ._100mV => 0x7
    | _ => 0x0
  | .Upper =>
    match t with
    | ._44mV => 0x0 | ._67mV => 0x1 | ._89mV => 0x2 | ._111mV => 0x3
    | ._133mV => 0x4 | ._155mV => 0x5 | ._178mV => 0x6 | ._200mV => 0x7
    | _ => 0x0
  | .Unknown => 0

/-- The `thresholds` array local to `SCDThreshold::from_mv`. -/
def scdTableList : List SCDThreshold :=
  [._22mV, ._33mV, ._44mV, ._56mV, ._67mV, ._78mV, ._89mV,
   ._100mV, ._111mV, ._133mV, ._155mV, ._178mV, ._200mV]

/-- `SCDThreshold::from_mv`.  The argument is a `u8` in the source (callers
pass a truncated value, see `from_current`).  The final `unreachable!()` is
never hit because the guarded linear scan always finds an entry for
22 ≤ mv ≤ 200; we map it to `_22mV`. -/
def SCDThreshold.from_mv (mv_threshold : Nat) : SCDThreshold :=
  if mv_threshold < 22 then ._22mV
  else if mv_threshold > 200 then ._200mV
  else
    match scdTableList.find? (fun t => mv_threshold ≤ t.toMv) with
    | some t => t
    | none => ._22mV

/-- `SCDThreshold::from_current`: `mv = threshold.0 * shunt.0 / 1000` in
`u32` arithmetic (wrapping multiplication), then truncated `as u8` before the
table lookup. -/
def SCDThreshold.from_current (threshold shunt : Nat) : SCDThreshold :=
  SCDThreshold.from_mv (threshold * shunt % 4294967296 / 1000 % 256)

/-! ## OCD threshold table (`enum OCDThreshold`) -/

inductive OCDThreshold
  | _8mV | _11mV | _14mV | _17mV | _19mV | _22mV | _25mV | _28mV
  | _31mV | _33mV | _36mV | _39mV | _42mV | _44mV | _47mV | _50mV
  | _56mV | _61mV | _67mV | _72mV | _78mV | _83mV | _89mV | _94mV | _100mV
deriving DecidableEq, Repr

/-- Numeric discriminant of each `OCDThreshold` variant (its mV value). -/
def OCDThreshold.toMv : OCDThreshold → Nat
  | ._8mV => 8 | ._11mV => 11 | ._14mV => 14 | ._17mV => 17
  | ._19mV => 19 | ._22mV => 22 | ._25mV => 25 | ._28mV => 28
  | ._31mV => 31 | ._33mV => 33 | ._36mV => 36 | ._39mV => 39
  | ._42mV => 42 | ._44mV => 44 | ._47mV => 47 | ._50mV => 50
  | ._56mV => 56 | ._61mV => 61 | ._67mV => 67 | ._72mV => 72
  | ._78mV => 78 | ._83mV => 83 | ._89mV => 89 | ._94mV => 94
  | ._100mV => 100

/-- `OCDThreshold::range`. -/
def OCDThreshold.range : OCDThreshold → OCDSCDRange
  | ._17mV | ._22mV | ._28mV | ._33mV | ._39mV | ._44mV | ._50mV => .Unknown
  | ._56mV | ._61mV | ._67mV | ._72mV | ._78mV | ._83mV | ._89mV
  | ._94mV | ._100mV => .Upper
  | _ => .Lower

/-- `OCDThreshold::bits` (same fall-through conventions as
`SCDThreshold.bits`). -/
def OCDThreshold.bits (t : OCDThreshold) (range : OCDSCDRange) : Nat :=
  match range with
  | .Lower =>
    match t with
    | ._8mV => 0x0 | ._11mV => 0x1 | ._14mV => 0x2 | ._17mV => 0x3
    | ._19mV => 0x4 | ._22mV => 0x5 | ._25mV => 0x6 | ._28mV => 0x7
    | ._31mV => 0x8 | ._33mV => 0x9 | ._36mV => 0xa | ._39mV => 0xb
    | ._42mV => 0xc | ._44mV => 0xd | ._47mV => 0xe | ._50mV => 0xf
    | _ => 0x0
  | .Upper =>
    match t with
    | ._17mV => 0x0 | ._22mV => 0x1 | ._28mV => 0x2 | ._33mV => 0x3
    | ._39mV => 0x4 | ._44mV => 0x5 | ._50mV => 0x6 | ._56mV => 0x7
    | ._61mV => 0x8 | ._67mV => 0x9 | ._72mV => 0xa | ._78mV => 0xb
    | ._83mV => 0xc | ._89mV => 0xd | ._94mV => 0xe | ._100mV => 0xf
    | _ => 0x0
  | .Unknown => 0

/-- The `thresholds` array local to `OCDThreshold::from_mv`. -/
def ocdTableList : List OCDThreshold :=
  [._8mV, ._11mV, ._14mV, ._17mV, ._19mV, ._22mV, ._25mV, ._28mV,
   ._31mV, ._33mV, ._36mV, ._39mV, ._42mV, ._44mV, ._47mV, ._50mV,
   ._56mV, ._61mV, ._67mV, ._72mV, ._78mV, ._83mV, ._89mV, ._94mV, ._100mV]

/-- `OCDThreshold::from_mv` (same conventions as `SCDThreshold.from_mv`). -/
def OCDThreshold.from_mv (mv_threshold : Nat) : OCDThreshold :=
  if mv_threshold < 8 then ._8mV
  else if mv_threshold > 100 then ._100mV
  else
    match ocdTableList.find? (fun t => mv_threshold ≤ t.toMv) with
    | some t => t
    | none => ._8mV

/-- `OCDThreshold::from_current`: `u32` millivolt computation truncated
`as u8`, like `SCDThreshold.from_current`. -/
def OCDThreshold.from_current (threshold shunt : Nat) : OCDThreshold :=
  OCDThreshold.from_mv (threshold * shunt % 4294967296 / 1000 % 256)

/-! ## Spec-side rounding policy (for claim C1).  Modelled from the spec's
words: "return the smallest table entry whose millivolt value is not below
mv; below the table minimum clamp to the minimum entry; above the maximum
clamp to the maximum entry". -/

/-- Spec-side resolution of an (untruncated) millivolt request for SCD. -/
def scdSpecResolve (mv : Nat) : SCDThreshold :=
  (scdTableList.find? (fun t => mv ≤ t.toMv)).getD ._200mV

/-- Spec-side resolution of an (untruncated) millivolt request for OCD. -/
def ocdSpecResolve (mv : Nat) : OCDThreshold :=
  (ocdTableList.find? (fun t => mv ≤ t.toMv)).getD ._100mV

/-! ## Delay selectors (`SCDDelay`, `OCDDelay`, `UVDelay`, `OVDelay`) -/

inductive SCDDelay
  | _70uS | _100uS | _200uS | _400uS
deriving DecidableEq, Repr

/-- `SCDDelay::bits`. -/
def SCDDelay.bits : SCDDelay → Nat
  | ._70uS => 0x0 <<< 3
  | ._100uS => 0x1 <<< 3
  | ._200uS => 0x2 <<< 3
  | ._400uS => 0x3 <<< 3

inductive OCDDelay
  | _8ms | _20ms | _40ms | _80ms | _160ms | _320ms | _640ms | _1280ms
deriving DecidableEq, Repr

/-- `OCDDelay::bits`. -/
def OCDDelay.bits : OCDDelay → Nat
  | ._8ms => 0x0 <<< 4
  | ._20ms => 0x1 <<< 4
  | ._40ms => 0x2 <<< 4
  | ._80ms => 0x3 <<< 4
  | ._160ms => 0x4 <<< 4
  | ._320ms => 0x5 <<< 4
  | ._640ms => 0x6 <<< 4
  | ._1280ms => 0x7 <<< 4

inductive UVDelay
  | _1s | _4s | _8s | _16s
deriving DecidableEq, Repr

/-- `UVDelay::bits`. -/
def UVDelay.bits : UVDelay → Nat
  | ._1s => 0x0 <<< 6
  | ._4s => 0x1 <<< 6
  | ._8s => 0x2 <<< 6
  | ._16s => 0x3 <<< 6

inductive OVDelay
  | _1s | _4s | _8s | _16s
deriving DecidableEq, Repr

/-- `OVDelay::bits`. -/
def OVDelay.bits : OVDelay → Nat
  | ._1s => 0x0 <<< 4
  | ._4s => 0x1 <<< 4
  | ._8s => 0x2 <<< 4
  | ._16s => 0x3 <<< 4

/-! ## Configuration record (`struct Config`; `Amperes`, `MicroOhms`,
`MilliVolts` newtypes are represented by their wrapped `u32` value) -/

structure Config where
  shunt : Nat
  scd_delay : SCDDelay
  scd_threshold : Nat
  ocd_delay : OCDDelay
  ocd_threshold : Nat
  uv_delay : UVDelay
  uv_threshold : Nat
  ov_delay : OVDelay
  ov_threshold : Nat
deriving Repr

/-- `struct CalculatedValues` (fields as in the source, unit newtypes
represented by their numeric value). -/
structure CalculatedValues where
  ocdscd_range_used : OCDSCDRange
  scd_threshold : Nat
  ocd_threshold : Nat
  uv_threshold : Nat
  ov_threshold : Nat
deriving DecidableEq, Repr

/-! ## ADC transfer function (`struct AdcTransferFunction`) -/

structure AdcTransferFunction where
  gain : Nat
  offset : Int
deriving DecidableEq, Repr

/-- `AdcTransferFunction::apply`: `uv = adc_reading as i32 * gain as i32 +
offset as i32 * 1000; MilliVolts((uv / 1000) as u32)`.  `i32` products wrap
and the final quotient is truncated `as u32`. -/
def AdcTransferFunction.apply (tf : AdcTransferFunction) (adc_reading : Nat) : Nat :=
  let uv := i32_wrap ((adc_reading : Int) * tf.gain + tf.offset * 1000)
  u32_of_i32 (rust_div uv 1000)

/-! ## Device session state (`struct BQ769x0<X>`) -/

def BQ76920 : Nat := 5
def BQ76930 : Nat := 10
def BQ76940 : Nat := 15

structure DevState where
  dev_address : Nat
  init_complete : Bool
  adc_gain : Nat
  adc_offset : Int
  shunt : Nat
  cell_count : Nat
  cells : List Nat
  use_crc : Bool
deriving DecidableEq, Repr

/-- `BQ769x0::adc_transfer_function`. -/
def adc_tf (s : DevState) : AdcTransferFunction :=
  { gain := s.adc_gain, offset := s.adc_offset }

/-- `BQ769x0::ov_voltage_range` (millivolt window reachable by OV codes). -/
def ov_voltage_range (s : DevState) : Nat × Nat :=
  ((adc_tf s).apply 0b10000000001000, (adc_tf s).apply 0b10111111111000)

/-- `BQ769x0::uv_voltage_range` (millivolt window reachable by UV codes). -/
def uv_voltage_range (s : DevState) : Nat × Nat :=
  ((adc_tf s).apply 0b01000000000000, (adc_tf s).apply 0b01111111110000)

/-! ## Register-level bus model for the session operations.

The session methods call `read_raw`/`write_raw`, which (in either CRC or
non-CRC mode, over a healthy bus) deliver consecutive device register bytes
starting at the given register address, or send payload bytes to consecutive
registers.  We model the device registers as `regs : Nat → Nat` (each value a
byte) and record every bus transaction in a trace of `RegOp`s.  The framing
codec itself is modelled separately below (`read_raw_crc`, `write_raw_crc`)
for the transaction-level claims. -/

inductive RegOp
  | read (reg len : Nat)
  | write (reg : Nat) (bytes : List Nat)
deriving DecidableEq, Repr

/-- Whether a trace entry is a register write. -/
def RegOp.isWrite : RegOp → Bool
  | .read _ _ => false
  | .write _ _ => true

/-- Byte value of a device register (registers hold `u8`s). -/
def byteAt (regs : Nat → Nat) (a : Nat) : Nat := regs a % 256

/-- `BQ769x0::read_adc_characteristics`: reads trim registers 0x50..0x51 and
0x59 and sets `adc_gain = 365 + (((trim1 << 1) & 0b00011000) | (trim2 >> 5))`
(all in `u8` arithmetic) and `adc_offset = trim_offset as i8`. -/
def read_adc_characteristics (s : DevState) (regs : Nat → Nat) :
    DevState × List RegOp :=
  let gain1 := byteAt regs 0x50
  let off := byteAt regs 0x51
  let gain2 := byteAt regs 0x59
  ({ s with
      adc_gain := 365 + ((((gain1 <<< 1) % 256) &&& 0b00011000) ||| (gain2 >>> 5)),
      adc_offset := i8_of_u8 off },
   [.read 0x50 2, .read 0x59 1])

/-- The `range_to_use` computation inlined in `BQ769x0::init` (after the
Lower/Upper mismatch has been ruled out). -/
def rangeToUse (scd_range ocd_range : OCDSCDRange) : OCDSCDRange :=
  if scd_range = .Unknown then
    if ocd_range = .Unknown then .Lower else ocd_range
  else if ocd_range = .Unknown then
    if scd_range = .Unknown then .Lower else scd_range
  else ocd_range

/-- The UV/OV code computation inlined in `BQ769x0::init`:
`trip_full = ((target as i32 - offset as i32) * 1000) / gain as i32`
(an ADC code; `i32` arithmetic with wrapping, quotient toward zero). -/
def trip_full (gain : Nat) (offset : Int) (target : Nat) : Int :=
  rust_div (i32_wrap (i32_wrap (i32_of_u32 target - offset) * 1000)) gain

/-- The 8-bit register code taken from a trip value:
`(((trip_full as u16) >> 4) & 0xff) as u8`. -/
def trip_bits (gain : Nat) (offset : Int) (target : Nat) : Nat :=
  (u16_of_i32 (trip_full gain offset target) >>> 4) &&& 0xff

/-- `BQ769x0::init` over the register-level bus model.  Returns the
result, the session state after the call, and the bus-transaction trace.
With `shunt = 0` the source would panic computing the achieved current
thresholds (`u32` division by zero); the model then yields the Lean default
quotient 0 — no claim below touches that corner. -/
def init (s : DevState) (regs : Nat → Nat) (c : Config) :
    Except Error CalculatedValues × DevState × List RegOp :=
  let (s1, tr) := read_adc_characteristics s regs
  let scd_threshold := SCDThreshold.from_current c.scd_threshold c.shunt
  let ocd_threshold := OCDThreshold.from_current c.ocd_threshold c.shunt
  let scd_range := scd_threshold.range
  let ocd_range := ocd_threshold.range
  if (scd_range = .Lower ∧ ocd_range = .Upper) ∨
     (scd_range = .Upper ∧ ocd_range = .Lower) then
    (.error .OCDSCDRangeMismatch, s1, tr)
  else
    let range_to_use := rangeToUse scd_range ocd_range
    let scd_bits := scd_threshold.bits range_to_use
    let ocd_bits := ocd_threshold.bits range_to_use
    let reg0 := range_to_use.bits ||| c.scd_delay.bits ||| scd_bits
    let reg1 := c.ocd_delay.bits ||| ocd_bits
    let reg2 := c.uv_delay.bits ||| c.ov_delay.bits
    let ov_limits := ov_voltage_range s1
    if ¬ (ov_limits.1 ≤ c.ov_threshold ∧ c.ov_threshold ≤ ov_limits.2) then
      (.error (.OVThresholdUnobtainable ov_limits.1 ov_limits.2), s1, tr)
    else
      let ov_bits := trip_bits s1.adc_gain s1.adc_offset c.ov_threshold
      let uv_limits := uv_voltage_range s1
      if ¬ (uv_limits.1 ≤ c.uv_threshold ∧ c.uv_threshold ≤ uv_limits.2) then
        (.error (.UVThresholdUnobtainable uv_limits.1 uv_limits.2), s1, tr)
      else
        let uv_bits := trip_bits s1.adc_gain s1.adc_offset c.uv_threshold
        let regsArr := [reg0, reg1, reg2, ov_bits, uv_bits, 0x19]
        let s2 := { s1 with shunt := c.shunt, init_complete := true }
        let sysctrl2 := byteAt regs 0x05
        let tr2 := tr ++ [.write 0x06 regsArr, .read 0x05 1,
                          .write 0x05 [sysctrl2 ||| 0b01000000]]
        (.ok {
            ocdscd_range_used := range_to_use,
            scd_threshold := scd_threshold.toMv * 1000 / c.shunt,
            ocd_threshold := ocd_threshold.toMv * 1000 / c.shunt,
            uv_threshold := (adc_tf s2).apply (0b01000000000000 ||| (uv_bits <<< 4)),
            ov_threshold := (adc_tf s2).apply (0b10000000001000 ||| (ov_bits <<< 4)) },
         s2, tr2)

/-- `BQ769x0::cell_voltages` over the register-level bus model. -/
def cell_voltages (X : Nat) (s : DevState) (regs : Nat → Nat) :
    Except Error (List Nat) × DevState × List RegOp :=
  if ¬ s.init_complete then (.error .Uninitialized, s, [])
  else
    let buf := (List.range (X * 2)).map (fun i => byteAt regs (0x0c + i))
    let tf := adc_tf s
    let cells0 := (List.range X).map
      (fun i => tf.apply (((buf.getD (i * 2) 0) <<< 8) ||| buf.getD (i * 2 + 1) 0))
    let cc := s.cell_count
    let cells1 :=
      if cc = 3 ∨ cc = 6 ∨ cc = 9 then cells0.set 2 (cells0.getD 4 0)
      else if cc = 4 ∨ cc = 7 ∨ cc = 8 ∨ cc = 10 ∨ cc = 11 ∨ cc = 12 then
        cells0.set 3 (cells0.getD 4 0)
      else cells0
    let cells2 :=
      if (X = BQ76930 ∨ X = BQ76940) ∧ (cc = 6 ∨ cc = 7 ∨ cc = 9 ∨ cc = 10) then
        cells1.set 7 (cells1.getD 9 0)
      else cells1
    let cells3 :=
      if (X = BQ76930 ∨ X = BQ76940) ∧
         (cc = 8 ∨ cc = 9 ∨ cc = 11 ∨ cc = 12 ∨ cc = 13) then
        cells2.set 8 (cells2.getD 9 0)
      else cells2
    let cells4 :=
      if X = BQ76940 ∧ (cc = 9 ∨ cc = 10 ∨ cc = 11) then
        cells3.set 12 (cells3.getD 14 0)
      else cells3
    let cells5 :=
      if X = BQ76940 ∧ (cc = 12 ∨ cc = 13 ∨ cc = 14) then
        cells4.set 13 (cells4.getD 14 0)
      else cells4
    (.ok (cells5.take cc), { s with cells := cells5 }, [.read 0x0c (X * 2)])

/-- Interpret a `u16` value as Rust `i16::from_be_bytes` does. -/
def i16_of_u16 (n : Nat) : Int :=
  if n % 65536 < 32768 then (n % 65536 : Nat) else (n % 65536 : Nat) - 65536

/-- `BQ769x0::current` over the register-level bus model.  The source has no
initialization guard: it reads the coulomb counter and computes
`vshunt / self.shunt.0 as i32`; with `shunt = 0` (the post-constructor
value) that `i32` division panics, modelled by `RtError.panic`. -/
def current (s : DevState) (regs : Nat → Nat) :
    Except RtError Int × List RegOp :=
  let cc := i16_of_u16 ((byteAt regs 0x32) <<< 8 ||| byteAt regs 0x33)
  let vshunt : Int := cc * 8440
  if i32_of_u32 s.shunt = 0 then (.error .panic, [.read 0x32 2])
  else (.ok (rust_div vshunt (i32_of_u32 s.shunt)), [.read 0x32 2])

inductive TemperatureSource
  | InternalDie
  | ExternalThermistor
deriving DecidableEq, Repr

/-- `BQ769x0::temperature_source` over the register-level bus model: reads
SYS_CTRL1, masks with `!(1 << 3)`, then tests bit 3 of the masked byte. -/
def temperature_source (_s : DevState) (regs : Nat → Nat) :
    Except Error TemperatureSource × List RegOp :=
  let sysctrl1 := byteAt regs 0x04
  let masked := sysctrl1 &&& 0b11110111
  let is_external := masked &&& (1 <<< 3) ≠ 0
  ((if is_external then .ok .ExternalThermistor else .ok .InternalDie),
   [.read 0x04 1])

/-! ## CRC-framed transaction codec (`read_raw_crc` / `write_raw_crc`).

The bus transport (`embedded_hal` `Write`/`WriteRead`) is modelled by a
`Transport`: whether each primitive reports success, and the bytes the
transport deposits into the caller-supplied receive slice (unwritten slice
positions keep their zero initialisation, hence the padding). -/

structure Transport where
  readOk : Bool
  readBytes : List Nat
  writeOk : Bool
deriving DecidableEq, Repr

inductive I2COp
  | write (dev : Nat) (bytes : List Nat)
  | write_read (dev : Nat) (out : List Nat) (respLen : Nat)
deriving DecidableEq, Repr

/-- Pad or truncate a byte list to exactly `n` entries (zero filled). -/
def padTo (l : List Nat) (n : Nat) : List Nat :=
  l.take n ++ List.replicate (n - (l.take n).length) 0

/-- First CRC check of a framed read: the received CRC byte `buf[1]` must be
the CRC-8 of `[(dev_address << 1) | 1, buf[0]]`. -/
def crcFirstOk (dev : Nat) (buf : List Nat) : Bool :=
  crc8 [((dev <<< 1) % 256) ||| 1, buf.getD 0 0] == buf.getD 1 0

/-- Remaining CRC checks of a framed read: for `i = 3, 5, ..., 2n-1` the
received CRC byte `buf[i]` must be the CRC-8 of the preceding value byte
`buf[i-1]` alone. -/
def crcRestOk (n : Nat) (buf : List Nat) : Bool :=
  (List.range' 3 (n - 1) 2).all (fun i => crc8 [buf.getD (i - 1) 0] == buf.getD i 0)

/-- The `buf` receive buffer of `read_raw_crc` after the transport call: a
`X * 4` zero-initialised array whose first `n * 2` bytes were handed to the
transport as the receive slice. -/
def rxBuf (X n : Nat) (tr : Transport) : List Nat :=
  padTo tr.readBytes (n * 2) ++ List.replicate (X * 4 - n * 2) 0

/-- `BQ769x0::<X>::read_raw_crc`.  Returns the operation result together
with the caller's `data` buffer after the call (the source writes into
`data` only on full success). -/
def read_raw_crc (X : Nat) (dev _reg : Nat) (tr : Transport) (data : List Nat) :
    Except Error Unit × List Nat :=
  let n := data.length
  if n > X * 2 then (.error .BufTooLarge, data)
  else if n = 0 then (.ok (), data)
  else
    let buf := rxBuf X n tr
    if ¬ crcFirstOk dev buf then (.error .CRCMismatch, data)
    else if n > 1 ∧ ¬ crcRestOk n buf then (.error .CRCMismatch, data)
    else if tr.readOk then
      (.ok (), (List.range n).map (fun i => buf.getD (i * 2) 0))
    else (.error .I2CError, data)

/-- The frame assembly of `write_raw_crc`: a 17-byte zeroed buffer receives
the register address, the payload bytes at odd offsets, the first CRC over
`[dev_address << 1, reg_address, data[0]]` at offset 2, then one CRC of the
preceding byte at each even offset `4, 6, ..., 2n`; the frame is the first
`2n + 1` bytes. -/
def write_buf (dev reg : Nat) (data : List Nat) : List Nat :=
  let buf := List.replicate 17 0
  let buf := buf.set 0 reg
  let buf := (List.range data.length).foldl
    (fun b i => b.set (i * 2 + 1) (data.getD i 0)) buf
  let buf := buf.set 2 (crc8 [(dev <<< 1) % 256, reg, data.getD 0 0])
  let buf := (List.range' 4 (data.length - 1) 2).foldl
    (fun b i => b.set i (crc8 [b.getD (i - 1) 0])) buf
  buf.take (data.length * 2 + 1)

/-- `BQ769x0::<X>::write_raw_crc`.  Returns the result and the trace of
transport-level calls made. -/
def write_raw_crc (dev reg : Nat) (tr : Transport) (data : List Nat) :
    Except Error Unit × List I2COp :=
  if data.length > 8 then (.error .BufTooLarge, [])
  else if data.length = 0 then (.ok (), [])
  else
    let frame := write_buf dev reg data
    if tr.writeOk then (.ok (), [.write dev frame])
    else (.error .I2CError, [.write dev frame])

/-- Spec-side description of the write frame (for claim C5), modelled from
the spec's words: `[register_address, byte0, crc0, byte1, crc1, ...]` where
`crc0 = CRC(device_address << 1, register_address, byte0)` and each later
`crc_i = CRC(byte_i)` alone. -/
def specWriteFrame (dev reg : Nat) (data : List Nat) : List Nat :=
  reg :: (data.enum.map (fun p =>
    [p.2, if p.1 = 0 then crc8 [(dev <<< 1) % 256, reg, p.2] else crc8 [p.2]])).flatten

/-! ## Helper lemmas -/

/-- For every byte-sized argument, `SCDThreshold.from_mv` agrees with the
spec-side rounding policy. -/
lemma scd_from_mv_spec : ∀ m, m < 256 → SCDThreshold.from_mv m = scdSpecResolve m := by
  decide

/-- For every byte-sized argument, `OCDThreshold.from_mv` agrees with the
spec-side rounding policy. -/
lemma ocd_from_mv_spec : ∀ m, m < 256 → OCDThreshold.from_mv m = ocdSpecResolve m := by
  decide

/-- `rangeToUse` never yields `Unknown`, so the `unreachable!()` arms of the
`bits` functions are indeed unreachable from `init`. -/
lemma rangeToUse_ne_unknown (a b : OCDSCDRange) : rangeToUse a b ≠ .Unknown := by
  cases a <;> cases b <;> decide

/-! ## Claim C1 -/

/-- C1 counterexample: the claim says that for a requested trip current whose
millivolt drop `mv = amps * micro_ohms / 1000` lies above the SCD table
maximum of 200 mV, `SCDThreshold::from_current` yields the maximum entry
`_200mV`.  At 300 A on a 1000 µΩ shunt, `mv = 300`, yet the code truncates
`mv` `as u8` to 44 and returns `_44mV`, not `_200mV`. -/
theorem C1_counterexample :
    300 * 1000 / 1000 = 300 ∧ 200 < 300 ∧
    SCDThreshold.from_current 300 1000 = SCDThreshold._44mV ∧
    SCDThreshold.from_current 300 1000 ≠ SCDThreshold._200mV := by
  decide

/-- C1 (amended): provided the `u32` product `amps * micro_ohms` does not
overflow and the computed millivolt drop fits in a byte (`mv ≤ 255`),
`SCDThreshold::from_current` and `OCDThreshold::from_current` return the
smallest table entry whose millivolt value is not below `mv`, clamping to
the minimum entry below the table minimum and to the maximum entry above the
table maximum (for `mv > 255` the `as u8` cast instead wraps `mv` modulo
256 before the lookup). -/
theorem C1_amended (a s : Nat) (h1 : a * s < 4294967296)
    (h2 : a * s / 1000 ≤ 255) :
    SCDThreshold.from_current a s = scdSpecResolve (a * s / 1000) ∧
    OCDThreshold.from_current a s = ocdSpecResolve (a * s / 1000) := by
  unfold SCDThreshold.from_current OCDThreshold.from_current
  rw [Nat.mod_eq_of_lt h1, Nat.mod_eq_of_lt (show a * s / 1000 < 256 by omega)]
  exact ⟨scd_from_mv_spec _ (by omega), ocd_from_mv_spec _ (by omega)⟩

/-- C1 witness: the amended theorem applied at the driver's own test fixture
(200 A request on a 667 µΩ shunt, a 133 mV drop). -/
theorem C1_witness :
    200 * 667 < 4294967296 ∧ 200 * 667 / 1000 ≤ 255 ∧
    (SCDThreshold.from_current 200 667 = scdSpecResolve (200 * 667 / 1000) ∧
     OCDThreshold.from_current 200 667 = ocdSpecResolve (200 * 667 / 1000)) :=
  ⟨by decide, by decide, C1_amended 200 667 (by decide) (by decide)⟩

/-! ## Claim C8 -/

/-- C8 counterexample: the claim says the transfer function returns
`(raw_code * gain + offset*1000) / 1000` (truncated toward zero) for every
raw code, gain and signed offset.  At `raw = 0`, `gain = 365`,
`offset = -1` the truncated quotient is `-1`, but the function returns the
`u32`-wrapped value 4294967295. -/
theorem C8_counterexample :
    AdcTransferFunction.apply { gain := 365, offset := -1 } 0 = 4294967295 ∧
    rust_div ((0 : Int) * 365 + (-1) * 1000) 1000 = -1 ∧
    ((4294967295 : Int) ≠ -1) := by
  decide

/-- C8 (amended): whenever `uv = raw_code * gain + offset * 1000` fits in an
`i32`, the transfer function returns the truncated-toward-zero quotient
`uv / 1000` reduced modulo 2^32 (the `as u32` cast), and returns the
quotient exactly whenever that quotient is nonnegative. -/
theorem C8_amended (raw gain : Nat) (offset : Int)
    (hhi : (raw : Int) * gain + offset * 1000 < 2147483648)
    (hlo : -2147483648 ≤ (raw : Int) * gain + offset * 1000) :
    (AdcTransferFunction.apply { gain := gain, offset := offset } raw : Int) =
      (rust_div ((raw : Int) * gain + offset * 1000) 1000) % 4294967296 ∧
    (0 ≤ rust_div ((raw : Int) * gain + offset * 1000) 1000 →
      (AdcTransferFunction.apply { gain := gain, offset := offset } raw : Int) =
        rust_div ((raw : Int) * gain + offset * 1000) 1000) := by
  set uv : Int := (raw : Int) * gain + offset * 1000 with huv
  have hwrap : i32_wrap uv = uv := by unfold i32_wrap; omega
  have h1 : (AdcTransferFunction.apply { gain := gain, offset := offset } raw : Int) =
      (rust_div uv 1000) % 4294967296 := by
    unfold AdcTransferFunction.apply u32_of_i32
    simp only [hwrap]
    exact Int.toNat_of_nonneg (Int.emod_nonneg _ (by norm_num))
  refine ⟨h1, fun hq => ?_⟩
  rw [h1]
  have hqhi : rust_div uv 1000 < 4294967296 := by
    unfold rust_div at hq ⊢
    rcases le_or_lt 0 uv with huv0 | huv0
    · rw [Int.tdiv_eq_ediv huv0 (by norm_num)] at *
      have := Int.ediv_le_self 1000 huv0
      omega
    · have : uv.tdiv 1000 ≤ 0 := by
        have hn : (0 : Int) ≤ -uv := by omega
        have : (-uv).tdiv 1000 = -(uv.tdiv 1000) := Int.neg_tdiv uv 1000
        have hp : 0 ≤ (-uv).tdiv 1000 := by
          rw [Int.tdiv_eq_ediv hn (by norm_num)]
          exact Int.ediv_nonneg hn (by norm_num)
        omega
      omega
  omega

/-- C8 witness: the amended theorem applied at raw code 0x1000 with the
fixture calibration (gain 378 µV/LSB, offset 43 mV). -/
theorem C8_witness :
    ((4096 : Int) * 378 + 43 * 1000 < 2147483648) ∧
    ((AdcTransferFunction.apply { gain := 378, offset := 43 } 4096 : Int) =
      (rust_div ((4096 : Int) * 378 + 43 * 1000) 1000) % 4294967296 ∧
     (0 ≤ rust_div ((4096 : Int) * 378 + 43 * 1000) 1000 →
      (AdcTransferFunction.apply { gain := 378, offset := 43 } 4096 : Int) =
        rust_div ((4096 : Int) * 378 + 43 * 1000) 1000)) :=
  ⟨by decide, C8_amended 4096 378 43 (by decide) (by decide)⟩

/-! ## Claim C10 -/

/-- C10: `temperature_source` clears bit 3 of the SYS_CTRL1 byte it read
back before testing that very bit, so for every register contents it
returns `InternalDie` and never `ExternalThermistor`. -/
theorem C10_always_internal_die (s : DevState) (regs : Nat → Nat) :
    (temperature_source s regs).1 = .ok .InternalDie := by
  unfold temperature_source
  have hz : (byteAt regs 0x04 &&& 0b11110111) &&& 8 = 0 := by
    rw [Nat.and_assoc, show (0b11110111 &&& 8 : Nat) = 0 from by decide,
      Nat.and_zero]
  simp [hz]

/-- `BQ769x0::new` (the `const fn` constructor): validates the cell count
for the chip variant and starts a session with zero calibration and shunt,
not yet initialised. -/
def DevState.new (X : Nat) (dev_address cell_count : Nat) (use_crc : Bool) :
    Option DevState :=
  if X = BQ76920 ∨ X = BQ76930 ∨ X = BQ76940 then
    if (X = BQ76920 ∧ (cell_count < 3 ∨ 5 < cell_count)) ∨
       (X = BQ76930 ∧ (cell_count < 6 ∨ 10 < cell_count)) ∨
       (X = BQ76940 ∧ (cell_count < 9 ∨ 15 < cell_count)) then none
    else
      some { dev_address := dev_address, init_complete := false, adc_gain := 0,
             adc_offset := 0, shunt := 0, cell_count := cell_count,
             cells := List.replicate X 0, use_crc := use_crc }
  else none

/-! ## Concrete fixtures (the driver's own test values: trim bytes
`0x15/0x2b/0xa3` give gain 378 µV/LSB and offset 43 mV) -/

/-- Device register map holding the fixture trim bytes, all else zero. -/
def trimRegs : Nat → Nat := fun a =>
  if a = 0x50 then 0x15 else if a = 0x51 then 0x2b
  else if a = 0x59 then 0xa3 else 0

/-- A freshly constructed 5-cell session (no CRC framing). -/
def devFresh0 : DevState :=
  { dev_address := 8, init_complete := false, adc_gain := 0, adc_offset := 0,
    shunt := 0, cell_count := 5, cells := List.replicate 5 0, use_crc := false }

/-- The configuration of the driver's own `it_works` test. -/
def cfgFixture : Config :=
  { shunt := 667, scd_delay := ._400uS, scd_threshold := 200,
    ocd_delay := ._1280ms, ocd_threshold := 100, uv_delay := ._4s,
    uv_threshold := 2000, ov_delay := ._4s, ov_threshold := 4175 }

/-- A configuration whose SCD threshold is Lower-only (22 mV) and whose OCD
threshold is Upper-only (56 mV). -/
def cfgMismatch : Config :=
  { cfgFixture with shunt := 1000, scd_threshold := 22, ocd_threshold := 56 }

/-! ## Claim C3 -/

/-- C3 (code divergence at the failing input): on a freshly constructed
session (`init_complete = false`, `shunt = 0`), `cell_voltages` does return
the `Uninitialized` error with no bus transaction, but `current` has no
initialization guard at all: it performs the coulomb-counter read at 0x32
and then computes `vshunt / self.shunt.0 as i32`, an `i32` division by zero,
which panics instead of returning `Uninitialized`. -/
theorem C3_current_missing_uninit_guard :
    DevState.new BQ76920 0x08 5 false = some devFresh0 ∧
    (cell_voltages BQ76920 devFresh0 (fun _ => 0)).1 = .error .Uninitialized ∧
    (cell_voltages BQ76920 devFresh0 (fun _ => 0)).2.2 = [] ∧
    (current devFresh0 (fun _ => 0)).1 = .error .panic ∧
    (current devFresh0 (fun _ => 0)).1 ≠ .error (.err .Uninitialized) ∧
    (current devFresh0 (fun _ => 0)).2 = [.read 0x32 2] := by
  decide

/-! ## Claim C7 -/

/-- C7: whenever `init` rejects the configuration with the range-mismatch
error or a UV/OV threshold-unobtainable error, no register write has been
issued on the bus by that call, and the session's `shunt` and
`init_complete` fields are left unchanged (the call does refresh the
calibration fields from the trim registers, which the claim does not
mention). -/
theorem C7_failed_init_leaves_device_alone (s : DevState) (regs : Nat → Nat)
    (c : Config) (e : Error) (h : (init s regs c).1 = .error e)
    (_he : e = .OCDSCDRangeMismatch ∨
           (∃ lo hi, e = .UVThresholdUnobtainable lo hi) ∨
           (∃ lo hi, e = .OVThresholdUnobtainable lo hi)) :
    (init s regs c).2.2.filter RegOp.isWrite = [] ∧
    (init s regs c).2.1.shunt = s.shunt ∧
    (init s regs c).2.1.init_complete = s.init_complete := by
  simp only [init, read_adc_characteristics] at h ⊢
  split_ifs at h ⊢ <;> simp_all [RegOp.isWrite, List.filter]

/-- C7 witness: the range-mismatch fixture (22 mV SCD request, 56 mV OCD
request) is rejected with no register write and no session mutation. -/
theorem C7_witness :
    ((init devFresh0 trimRegs cfgMismatch).1 = .error .OCDSCDRangeMismatch ∨
      True) ∧
    ((init devFresh0 trimRegs cfgMismatch).2.2.filter RegOp.isWrite = [] ∧
     (init devFresh0 trimRegs cfgMismatch).2.1.shunt = devFresh0.shunt ∧
     (init devFresh0 trimRegs cfgMismatch).2.1.init_complete = devFresh0.init_complete) :=
  ⟨.inl (by decide),
   C7_failed_init_leaves_device_alone devFresh0 trimRegs cfgMismatch
     .OCDSCDRangeMismatch (by decide) (.inl rfl)⟩

/-! ## Claim C2 -/

/-- C2: `init` rejects a Lower-only SCD threshold combined with an
Upper-only OCD threshold (and vice versa) with the range-mismatch error;
otherwise the committed range is the non-Unknown one of the two, `Lower`
when both are Unknown, and the common range when both agree; and on success
the PROTECT1/PROTECT2 bytes written to register 0x06 carry both thresholds'
bit codes re-encoded against that committed range. -/
theorem C2_range_reconciliation (s : DevState) (regs : Nat → Nat) (c : Config) :
    (((SCDThreshold.from_current c.scd_threshold c.shunt).range = .Lower ∧
      (OCDThreshold.from_current c.ocd_threshold c.shunt).range = .Upper) ∨
     ((SCDThreshold.from_current c.scd_threshold c.shunt).range = .Upper ∧
      (OCDThreshold.from_current c.ocd_threshold c.shunt).range = .Lower) →
      (init s regs c).1 = .error .OCDSCDRangeMismatch) ∧
    (∀ a b : OCDSCDRange,
      (a = .Unknown ∧ b = .Unknown → rangeToUse a b = .Lower) ∧
      (a ≠ .Unknown ∧ b = .Unknown → rangeToUse a b = a) ∧
      (a = .Unknown ∧ b ≠ .Unknown → rangeToUse a b = b) ∧
      (a ≠ .Unknown ∧ a = b → rangeToUse a b = a)) ∧
    (∀ cv s' tr', init s regs c = (.ok cv, s', tr') →
      cv.ocdscd_range_used =
        rangeToUse (SCDThreshold.from_current c.scd_threshold c.shunt).range
          (OCDThreshold.from_current c.ocd_threshold c.shunt).range ∧
      ∃ rest, RegOp.write 0x06
        (((rangeToUse (SCDThreshold.from_current c.scd_threshold c.shunt).range
             (OCDThreshold.from_current c.ocd_threshold c.shunt).range).bits |||
           c.scd_delay.bits |||
           (SCDThreshold.from_current c.scd_threshold c.shunt).bits
             (rangeToUse (SCDThreshold.from_current c.scd_threshold c.shunt).range
               (OCDThreshold.from_current c.ocd_threshold c.shunt).range)) ::
         (c.ocd_delay.bits |||
           (OCDThreshold.from_current c.ocd_threshold c.shunt).bits
             (rangeToUse (SCDThreshold.from_current c.scd_threshold c.shunt).range
               (OCDThreshold.from_current c.ocd_threshold c.shunt).range)) ::
         rest) ∈ tr') := by
  refine ⟨fun hmm => ?_, fun a b => by cases a <;> cases b <;> decide,
    fun cv s' tr' h => ?_⟩
  · simp only [init, read_adc_characteristics]
    rw [if_pos hmm]
  · simp only [init, read_adc_characteristics] at h
    split_ifs at h <;>
      simp only [Prod.mk.injEq, Except.ok.injEq, reduceCtorEq, false_and] at h
    obtain ⟨hcv, _, htr⟩ := h
    subst hcv
    subst htr
    refine ⟨rfl, ?_⟩
    simp only [List.cons_append, List.nil_append]
    exact ⟨_, List.mem_cons_of_mem _ (List.mem_cons_of_mem _ (List.mem_cons_self _ _))⟩

/-- C2 witness: the mismatch fixture is rejected, and the tie-break picks
`Upper` for an Unknown SCD with an Upper OCD. -/
theorem C2_witness :
    (init devFresh0 trimRegs cfgMismatch).1 = .error .OCDSCDRangeMismatch ∧
    rangeToUse .Unknown .Upper = .Upper :=
  ⟨(C2_range_reconciliation devFresh0 trimRegs cfgMismatch).1
      (.inl ⟨by decide, by decide⟩),
   (((C2_range_reconciliation devFresh0 trimRegs cfgMismatch).2.1
      .Unknown .Upper).2.2.1 ⟨rfl, by decide⟩)⟩

/-! ## Claim C4 -/

/-- A one-payload-byte framed read has no CRC positions beyond the first. -/
lemma crcRestOk_one (buf : List Nat) : crcRestOk 1 buf = true := rfl

/-- Any CRC mismatch in the receive buffer makes `read_raw_crc` fail with
`CRCMismatch`, leaving the caller's buffer untouched (shared helper). -/
lemma read_raw_crc_mismatch (X dev reg : Nat) (tr : Transport)
    (data : List Nat) (h1 : 1 ≤ data.length) (h2 : data.length ≤ X * 2)
    (hmm : ¬ (crcFirstOk dev (rxBuf X data.length tr) = true ∧
              crcRestOk data.length (rxBuf X data.length tr) = true)) :
    read_raw_crc X dev reg tr data = (.error .CRCMismatch, data) := by
  simp only [read_raw_crc]
  rw [if_neg (by omega), if_neg (by omega)]
  by_cases hf : crcFirstOk dev (rxBuf X data.length tr) = true
  · have hr : ¬ crcRestOk data.length (rxBuf X data.length tr) = true := by
      intro h
      exact hmm ⟨hf, h⟩
    have hn : data.length > 1 := by
      by_contra hle
      have h1' : data.length = 1 := by omega
      rw [h1'] at hr
      exact hr (crcRestOk_one _)
    rw [if_neg (by simp [hf]), if_pos ⟨hn, hr⟩]
  · rw [if_pos hf]

/-- C4: in a checksum-framed read whose received buffer fails any CRC check
(the first CRC covering `(dev_address << 1) | 1` and the first value byte,
each later CRC covering only the preceding value byte), `read_raw_crc`
returns the checksum-mismatch error and the caller's output buffer is
returned unmodified. -/
theorem C4_crc_mismatch_rejects_read (X dev reg : Nat) (tr : Transport)
    (data : List Nat) (h1 : 1 ≤ data.length) (h2 : data.length ≤ X * 2)
    (hmm : ¬ (crcFirstOk dev (rxBuf X data.length tr) = true ∧
              crcRestOk data.length (rxBuf X data.length tr) = true)) :
    read_raw_crc X dev reg tr data = (.error .CRCMismatch, data) :=
  read_raw_crc_mismatch X dev reg tr data h1 h2 hmm

/-- C4 witness: a 2-byte framed read from device 0x08 whose transport
deposited four zero bytes fails the first CRC check (that CRC-8 is 66, not
0), and the caller's buffer keeps its previous contents. -/
theorem C4_witness :
    (1 ≤ 2 ∧ 2 ≤ 5 * 2 ∧
      ¬ (crcFirstOk 8 (rxBuf 5 2 { readOk := true, readBytes := [0, 0, 0, 0], writeOk := true }) = true ∧
         crcRestOk 2 (rxBuf 5 2 { readOk := true, readBytes := [0, 0, 0, 0], writeOk := true }) = true)) ∧
    read_raw_crc 5 8 0x0c { readOk := true, readBytes := [0, 0, 0, 0], writeOk := true } [7, 7] =
      (.error .CRCMismatch, [7, 7]) :=
  ⟨by decide,
   C4_crc_mismatch_rejects_read 5 8 0x0c _ [7, 7] (by decide) (by decide) (by decide)⟩

/-! ## Claim C5 -/

/-- The imperative frame assembly of `write_raw_crc` builds exactly the
spec-described frame `[reg, byte0, crc0, byte1, crc1, ...]` for payloads of
1 to 8 bytes. -/
lemma write_buf_eq_spec (dev reg : Nat) (data : List Nat)
    (h1 : 1 ≤ data.length) (h8 : data.length ≤ 8) :
    write_buf dev reg data = specWriteFrame dev reg data := by
  rcases data with _ | ⟨b0, data⟩
  · simp at h1
  rcases data with _ | ⟨b1, data⟩
  · simp only [write_buf, specWriteFrame, List.length_cons, List.length_nil]
    norm_num [List.range_succ, List.range', List.enum]
    rfl
  rcases data with _ | ⟨b2, data⟩
  · simp only [write_buf, specWriteFrame, List.length_cons, List.length_nil]
    norm_num [List.range_succ, List.range', List.enum]
    rfl
  rcases data with _ | ⟨b3, data⟩
  · simp only [write_buf, specWriteFrame, List.length_cons, List.length_nil]
    norm_num [List.range_succ, List.range', List.enum]
    rfl
  rcases data with _ | ⟨b4, data⟩
  · simp only [write_buf, specWriteFrame, List.length_cons, List.length_nil]
    norm_num [List.range_succ, List.range', List.enum]
    rfl
  rcases data with _ | ⟨b5, data⟩
  · simp only [write_buf, specWriteFrame, List.length_cons, List.length_nil]
    norm_num [List.range_succ, List.range', List.enum]
    rfl
  rcases data with _ | ⟨b6, data⟩
  · simp only [write_buf, specWriteFrame, List.length_cons, List.length_nil]
    norm_num [List.range_succ, List.range', List.enum]
    rfl
  rcases data with _ | ⟨b7, data⟩
  · simp only [write_buf, specWriteFrame, List.length_cons, List.length_nil]
    norm_num [List.range_succ, List.range', List.enum]
    rfl
  rcases data with _ | ⟨b8, data⟩
  · simp only [write_buf, specWriteFrame, List.length_cons, List.length_nil]
    norm_num [List.range_succ, List.range', List.enum]
    rfl
  · simp [List.length_cons] at h8

/-- C5: a checksum-framed write of 1 to 8 payload bytes sends exactly one
bus frame `[register_address, byte0, crc0, byte1, crc1, ...]` with
`crc0 = CRC-8(device_address << 1, register_address, byte0)` and each later
`crc_i = CRC-8(byte_i)` alone; a payload longer than 8 bytes returns the
buffer-too-large error with no bus call, and an empty payload returns
success with no bus call. -/
theorem C5_write_frame (dev reg : Nat) (tr : Transport) (data : List Nat) :
    (8 < data.length → write_raw_crc dev reg tr data = (.error .BufTooLarge, [])) ∧
    (data.length = 0 → write_raw_crc dev reg tr data = (.ok (), [])) ∧
    (1 ≤ data.length → data.length ≤ 8 →
      (write_raw_crc dev reg tr data).2 =
        [I2COp.write dev (specWriteFrame dev reg data)] ∧
      (tr.writeOk = true → (write_raw_crc dev reg tr data).1 = .ok ())) := by
  refine ⟨fun hlong => ?_, fun hzero => ?_, fun h1 h8 => ?_⟩
  · simp only [write_raw_crc]
    rw [if_pos (by omega)]
  · simp only [write_raw_crc]
    rw [if_neg (by omega), if_pos hzero]
  · simp only [write_raw_crc]
    rw [if_neg (by omega), if_neg (by omega), write_buf_eq_spec dev reg data h1 h8]
    constructor
    · by_cases hw : tr.writeOk = true
      · rw [if_pos hw]
      · rw [if_neg hw]
    · intro hw
      rw [if_pos hw]

/-- C5 witness: the frame for a 2-byte payload written to register 0x06 of
device 0x08. -/
theorem C5_witness :
    (8 < ([10, 20] : List Nat).length →
      write_raw_crc 8 6 { readOk := true, readBytes := [], writeOk := true } [10, 20] =
        (.error .BufTooLarge, [])) ∧
    (([10, 20] : List Nat).length = 0 →
      write_raw_crc 8 6 { readOk := true, readBytes := [], writeOk := true } [10, 20] =
        (.ok (), [])) ∧
    (1 ≤ ([10, 20] : List Nat).length → ([10, 20] : List Nat).length ≤ 8 →
      (write_raw_crc 8 6 { readOk := true, readBytes := [], writeOk := true } [10, 20]).2 =
        [I2COp.write 8 (specWriteFrame 8 6 [10, 20])] ∧
      (true = true →
        (write_raw_crc 8 6 { readOk := true, readBytes := [], writeOk := true } [10, 20]).1 =
          .ok ())) :=
  C5_write_frame 8 6 { readOk := true, readBytes := [], writeOk := true } [10, 20]

/-! ## Claim C6 -/

/-- C6 counterexample: the claim says a transport-level failure is always
surfaced as the bus-error kind and never as checksum-mismatch.  But
`read_raw_crc` checks the CRC bytes of the receive buffer before consulting
the transport result: a failed transport that left the one-byte read's
buffer zeroed yields `CRCMismatch` (the expected first CRC is 66, not 0),
not `I2CError`. -/
theorem C6_counterexample :
    ({ readOk := false, readBytes := [0, 0], writeOk := true } : Transport).readOk = false ∧
    (read_raw_crc 5 8 4 { readOk := false, readBytes := [0, 0], writeOk := true } [0]).1 =
      .error .CRCMismatch ∧
    (read_raw_crc 5 8 4 { readOk := false, readBytes := [0, 0], writeOk := true } [0]).1 ≠
      .error .I2CError := by
  decide

/-- When every received CRC byte matches, `read_raw_crc` succeeds or fails
purely on the transport result (shared helper). -/
lemma read_raw_crc_crc_ok (X dev reg : Nat) (tr : Transport) (data : List Nat)
    (h1 : 1 ≤ data.length) (h2 : data.length ≤ X * 2)
    (hf : crcFirstOk dev (rxBuf X data.length tr) = true)
    (hr : crcRestOk data.length (rxBuf X data.length tr) = true) :
    read_raw_crc X dev reg tr data =
      if tr.readOk = true then
        (.ok (), (List.range data.length).map
          (fun i => (rxBuf X data.length tr).getD (i * 2) 0))
      else (.error .I2CError, data) := by
  simp only [read_raw_crc]
  rw [if_neg (by omega), if_neg (by omega), if_neg (by simp [hf]),
    if_neg (by simp [hr])]

/-- C6 (amended): for checksum-framed writes a transport failure is surfaced
as `I2CError` exactly; for checksum-framed reads the CRC verification of the
receive buffer runs first, so `CRCMismatch` is returned exactly when some
received CRC byte mismatches (whether or not the transport succeeded), and
`I2CError` is returned exactly when every CRC byte matches but the transport
failed. -/
theorem C6_amended (X dev reg : Nat) (tr : Transport) (data : List Nat)
    (h1 : 1 ≤ data.length) (h2 : data.length ≤ X * 2) :
    ((read_raw_crc X dev reg tr data).1 = .error .CRCMismatch ↔
      ¬ (crcFirstOk dev (rxBuf X data.length tr) = true ∧
         crcRestOk data.length (rxBuf X data.length tr) = true)) ∧
    ((read_raw_crc X dev reg tr data).1 = .error .I2CError ↔
      (crcFirstOk dev (rxBuf X data.length tr) = true ∧
       crcRestOk data.length (rxBuf X data.length tr) = true ∧ tr.readOk = false)) ∧
    (∀ wdata : List Nat, 1 ≤ wdata.length → wdata.length ≤ 8 →
      ((write_raw_crc dev reg tr wdata).1 = .error .I2CError ↔ tr.writeOk = false)) := by
  refine ⟨?_, ?_, ?_⟩
  · by_cases hmm : crcFirstOk dev (rxBuf X data.length tr) = true ∧
        crcRestOk data.length (rxBuf X data.length tr) = true
    · rw [read_raw_crc_crc_ok X dev reg tr data h1 h2 hmm.1 hmm.2]
      cases htr : tr.readOk <;> simp [hmm.1, hmm.2]
    · rw [read_raw_crc_mismatch X dev reg tr data h1 h2 hmm]
      simp [hmm]
  · by_cases hmm : crcFirstOk dev (rxBuf X data.length tr) = true ∧
        crcRestOk data.length (rxBuf X data.length tr) = true
    · rw [read_raw_crc_crc_ok X dev reg tr data h1 h2 hmm.1 hmm.2]
      cases htr : tr.readOk <;> simp [hmm.1, hmm.2]
    · rw [read_raw_crc_mismatch X dev reg tr data h1 h2 hmm]
      exact iff_of_false (by simp) (fun h => hmm ⟨h.1, h.2.1⟩)
  · intro wdata hw1 hw8
    simp only [write_raw_crc]
    rw [if_neg (by omega), if_neg (by omega)]
    cases hw : tr.writeOk <;> simp

/-- C6 witness: the amended theorem at a concrete well-framed one-byte read
(value byte 0xaa, correct CRC) over a healthy transport. -/
theorem C6_witness :
    (1 ≤ 1 ∧ 1 ≤ 5 * 2) ∧
    ((read_raw_crc 5 8 10 { readOk := true, readBytes := [0xaa, crc8 [0x11, 0xaa]], writeOk := true } [0]).1 =
        .error .CRCMismatch ↔
      ¬ (crcFirstOk 8 (rxBuf 5 1 { readOk := true, readBytes := [0xaa, crc8 [0x11, 0xaa]], writeOk := true }) = true ∧
         crcRestOk 1 (rxBuf 5 1 { readOk := true, readBytes := [0xaa, crc8 [0x11, 0xaa]], writeOk := true }) = true)) := by
  refine ⟨by decide, ?_⟩
  exact (C6_amended 5 8 10 { readOk := true, readBytes := [0xaa, crc8 [0x11, 0xaa]], writeOk := true } [0]
    (by decide) (by decide)).1

/-! ## Claim C9: helper lemmas -/

lemma i32_of_u32_small (n : Nat) (h : n < 2147483648) : i32_of_u32 n = n := by
  unfold i32_of_u32
  rw [Nat.mod_eq_of_lt (by omega)]
  rw [if_pos h]

lemma i32_wrap_id (x : Int) (h1 : -2147483648 ≤ x) (h2 : x < 2147483648) :
    i32_wrap x = x := by
  unfold i32_wrap
  omega

lemma and255_eq_mod : ∀ y, y < 1024 → y &&& 255 = y % 256 := by decide

lemma lor4096 : ∀ b, b < 256 → 4096 ||| (b <<< 4) = 4096 + b * 16 := by decide

lemma lor8200 : ∀ b, b < 256 → 8200 ||| (b <<< 4) = 8200 + b * 16 := by decide

/-- Floor-division characterisation of the transfer function on the code
windows used by `init` (gain read from trim lies in [365, 396], offset is an
i8): no `i32` or `u32` wrap occurs and `apply` is the floor of
`(code * gain + offset * 1000) / 1000`. -/
lemma apply_floor (g : Nat) (o : Int) (code : Nat)
    (hg1 : 365 ≤ g) (hg2 : g ≤ 396) (ho1 : -128 ≤ o) (ho2 : o ≤ 127)
    (hlo : 4096 ≤ code) (hhi : code ≤ 12280) :
    (AdcTransferFunction.apply { gain := g, offset := o } code : Int) * 1000 ≤
        (code : Int) * g + o * 1000 ∧
      (code : Int) * g + o * 1000 ≤
        (AdcTransferFunction.apply { gain := g, offset := o } code : Int) * 1000 + 999 := by
  have hP1 : (4096 : Int) * 365 ≤ (code : Int) * (g : Int) := by
    exact_mod_cast Nat.mul_le_mul hlo hg1
  have hP2 : (code : Int) * (g : Int) ≤ 12280 * 396 := by
    exact_mod_cast Nat.mul_le_mul hhi hg2
  have key : ∀ A : Int, 0 ≤ A → A < 2147483648 →
      (u32_of_i32 (rust_div (i32_wrap A) 1000) : Int) * 1000 ≤ A ∧
      A ≤ (u32_of_i32 (rust_div (i32_wrap A) 1000) : Int) * 1000 + 999 := by
    intro A h0 h1
    rw [i32_wrap_id A (by omega) h1]
    unfold rust_div u32_of_i32
    rw [Int.tdiv_eq_ediv h0 (by norm_num)]
    have hq0 : 0 ≤ A / 1000 := Int.ediv_nonneg h0 (by norm_num)
    have hqle : A / 1000 ≤ A := Int.ediv_le_self _ h0
    rw [show A / 1000 % 4294967296 = A / 1000 from by omega]
    rw [Int.toNat_of_nonneg hq0]
    omega
  have hape : AdcTransferFunction.apply { gain := g, offset := o } code =
      u32_of_i32 (rust_div (i32_wrap ((code : Int) * g + o * 1000)) 1000) := rfl
  rw [hape]
  exact key _ (by linarith) (by linarith)

/-- Evaluation of `trip_full` in the regime `init` validates: no wrap, the
quotient is a Euclidean division of nonnegative operands. -/
lemma trip_full_eval (g : Nat) (o : Int) (t : Nat)
    (ho1 : -128 ≤ o) (ho2 : o ≤ 127) (ht : t ≤ 4990) (hot : o ≤ (t : Int)) :
    trip_full g o t = ((t : Int) - o) * 1000 / g := by
  unfold trip_full rust_div
  rw [i32_of_u32_small t (by omega)]
  rw [i32_wrap_id ((t : Int) - o) (by omega) (by omega)]
  rw [i32_wrap_id (((t : Int) - o) * 1000) (by omega) (by omega)]
  exact Int.tdiv_eq_ediv (by omega) (by omega)

/-- UV round-trip bound (helper for C9): for a target strictly above the UV
window minimum `apply 0x1000` and at most the window maximum `apply 0x1FF0`,
the value decoded from the 8-bit code computed by `init` is at most the
target, within one 8-bit-code step (16 LSB) plus truncation slack. -/
lemma uv_roundtrip (g : Nat) (o : Int) (t : Nat)
    (hg1 : 365 ≤ g) (hg2 : g ≤ 396) (ho1 : -128 ≤ o) (ho2 : o ≤ 127)
    (hlo : AdcTransferFunction.apply { gain := g, offset := o } 4096 < t)
    (hhi : t ≤ AdcTransferFunction.apply { gain := g, offset := o } 8176) :
    AdcTransferFunction.apply { gain := g, offset := o }
        (4096 ||| (trip_bits g o t <<< 4)) ≤ t ∧
    1000 * (t - AdcTransferFunction.apply { gain := g, offset := o }
        (4096 ||| (trip_bits g o t <<< 4))) ≤ 16 * g + 998 := by
  have hg0 : (0 : Int) < g := by exact_mod_cast Nat.lt_of_lt_of_le (by norm_num) hg1
  obtain ⟨ha1l, ha1r⟩ := apply_floor g o 4096 hg1 hg2 ho1 ho2 (by norm_num) (by norm_num)
  obtain ⟨ha2l, ha2r⟩ := apply_floor g o 8176 hg1 hg2 ho1 ho2 (by norm_num) (by norm_num)
  push_cast at ha1l ha1r ha2l ha2r
  set a1 := AdcTransferFunction.apply { gain := g, offset := o } 4096 with ha1def
  set a2 := AdcTransferFunction.apply { gain := g, offset := o } 8176 with ha2def
  have hlo' : (a1 : Int) < (t : Int) := by exact_mod_cast hlo
  have hhi' : (t : Int) ≤ (a2 : Int) := by exact_mod_cast hhi
  have hta : t ≤ 4990 := by
    have : (a2 : Int) * 1000 ≤ 8176 * 396 + 127 * 1000 := by linarith
    have ht' : (t : Int) ≤ 4990 := by linarith
    exact_mod_cast ht'
  have hot : o ≤ (t : Int) := by
    have : (1366 : Int) ≤ a1 := by linarith
    linarith
  have htf := trip_full_eval g o t ho1 ho2 hta hot
  set D : Int := ((t : Int) - o) * 1000 with hD
  set F : Int := D / g with hF
  have hdm : F * (g : Int) + D % g = D := by
    rw [hF, mul_comm]
    exact Int.ediv_add_emod D g
  have hr0 : 0 ≤ D % g := Int.emod_nonneg D (by omega)
  have hr1 : D % g < g := Int.emod_lt_of_pos D hg0
  have hDexp : D = (t : Int) * 1000 - o * 1000 := by rw [hD]; ring
  have hD1 : 4096 * (g : Int) + 1 ≤ D := by linarith
  have hD2 : D ≤ 8176 * (g : Int) := by linarith
  have hF1 : 4096 ≤ F := by
    by_contra hc
    push_neg at hc
    have hcc : F ≤ 4095 := by omega
    have hmul : F * (g : Int) ≤ 4095 * g := by
      calc F * (g : Int) ≤ 4095 * (g : Int) :=
            mul_le_mul_of_nonneg_right hcc (by omega)
        _ = 4095 * g := by ring
    linarith
  have hF2 : F ≤ 8176 := by
    by_contra hc
    push_neg at hc
    have hcc : (8177 : Int) ≤ F := by omega
    have hmul : (8177 : Int) * g ≤ F * g :=
      mul_le_mul_of_nonneg_right hcc (by omega)
    linarith
  have hF0 : (0 : Int) ≤ F := by omega
  set Fn : Nat := F.toNat with hFndef
  have hFnc : (Fn : Int) = F := Int.toNat_of_nonneg hF0
  have hFn1 : 4096 ≤ Fn := by omega
  have hFn2 : Fn ≤ 8176 := by omega
  have hbits : trip_bits g o t = Fn / 16 % 256 := by
    unfold trip_bits
    rw [htf]
    unfold u16_of_i32
    rw [show F % 65536 = F from by omega, ← hFndef]
    rw [Nat.shiftRight_eq_div_pow]
    rw [show (2 : Nat) ^ 4 = 16 from by norm_num]
    exact and255_eq_mod _ (by omega)
  have hbits256 : Fn / 16 % 256 < 256 := Nat.mod_lt _ (by norm_num)
  have hcodeq : 4096 ||| (trip_bits g o t <<< 4) = 4096 + Fn / 16 % 256 * 16 := by
    rw [hbits]
    exact lor4096 _ hbits256
  rw [hcodeq, show 4096 + Fn / 16 % 256 * 16 = Fn / 16 * 16 from by omega]
  set cd : Nat := Fn / 16 * 16 with hcddef
  have hcd1 : 4096 ≤ cd := by omega
  have hcd2 : cd ≤ 12280 := by omega
  have hcdF1 : (Fn : Int) - 15 ≤ (cd : Int) := by omega
  have hcdF2 : (cd : Int) ≤ (Fn : Int) := by omega
  obtain ⟨hachl, hachr⟩ := apply_floor g o cd hg1 hg2 ho1 ho2 hcd1 hcd2
  set ach := AdcTransferFunction.apply { gain := g, offset := o } cd with hachdef
  have hm1 : (cd : Int) * g ≤ F * g := by
    calc (cd : Int) * g ≤ (Fn : Int) * g :=
          mul_le_mul_of_nonneg_right hcdF2 (by omega)
      _ = F * g := by rw [hFnc]
  have hm2 : F * (g : Int) - 15 * g ≤ (cd : Int) * g := by
    have h := mul_le_mul_of_nonneg_right hcdF1 (show (0 : Int) ≤ g by omega)
    calc F * (g : Int) - 15 * g = ((Fn : Int) - 15) * g := by rw [hFnc]; ring
      _ ≤ (cd : Int) * g := h
  have hachle : (ach : Int) ≤ t := by
    have h1000 : (ach : Int) * 1000 ≤ (t : Int) * 1000 := by linarith
    linarith
  constructor
  · exact_mod_cast hachle
  · have hbound : (t : Int) * 1000 - (ach : Int) * 1000 ≤ 16 * g + 998 := by
      linarith
    have hle : ach ≤ t := by exact_mod_cast hachle
    omega

/-- OV round-trip bound (helper for C9): for a target anywhere in the OV
window `apply 0x2008 .. apply 0x2FF8`, the value decoded from the 8-bit code
computed by `init` is within 8 LSB plus truncation slack of the target, on
either side. -/
lemma ov_roundtrip (g : Nat) (o : Int) (t : Nat)
    (hg1 : 365 ≤ g) (hg2 : g ≤ 396) (ho1 : -128 ≤ o) (ho2 : o ≤ 127)
    (hlo : AdcTransferFunction.apply { gain := g, offset := o } 8200 ≤ t)
    (hhi : t ≤ AdcTransferFunction.apply { gain := g, offset := o } 12280) :
    -(8 * (g : Int) + 998) ≤
      1000 * ((t : Int) - AdcTransferFunction.apply { gain := g, offset := o }
        (8200 ||| (trip_bits g o t <<< 4))) ∧
    1000 * ((t : Int) - AdcTransferFunction.apply { gain := g, offset := o }
        (8200 ||| (trip_bits g o t <<< 4))) ≤ 8 * (g : Int) + 998 := by
  have hg0 : (0 : Int) < g := by exact_mod_cast Nat.lt_of_lt_of_le (by norm_num) hg1
  obtain ⟨ha1l, ha1r⟩ := apply_floor g o 8200 hg1 hg2 ho1 ho2 (by norm_num) (by norm_num)
  obtain ⟨ha2l, ha2r⟩ := apply_floor g o 12280 hg1 hg2 ho1 ho2 (by norm_num) (by norm_num)
  push_cast at ha1l ha1r ha2l ha2r
  set a1 := AdcTransferFunction.apply { gain := g, offset := o } 8200 with ha1def
  set a2 := AdcTransferFunction.apply { gain := g, offset := o } 12280 with ha2def
  have hlo' : (a1 : Int) ≤ (t : Int) := by exact_mod_cast hlo
  have hhi' : (t : Int) ≤ (a2 : Int) := by exact_mod_cast hhi
  have hta : t ≤ 4990 := by
    have : (a2 : Int) * 1000 ≤ 12280 * 396 + 127 * 1000 := by linarith
    have ht' : (t : Int) ≤ 4990 := by linarith
    exact_mod_cast ht'
  have hot : o ≤ (t : Int) := by
    have : (2864 : Int) ≤ a1 := by linarith
    linarith
  have htf := trip_full_eval g o t ho1 ho2 hta hot
  set D : Int := ((t : Int) - o) * 1000 with hD
  set F : Int := D / g with hF
  have hdm : F * (g : Int) + D % g = D := by
    rw [hF, mul_comm]
    exact Int.ediv_add_emod D g
  have hr0 : 0 ≤ D % g := Int.emod_nonneg D (by omega)
  have hr1 : D % g < g := Int.emod_lt_of_pos D hg0
  have hDexp : D = (t : Int) * 1000 - o * 1000 := by rw [hD]; ring
  have hD1 : 8200 * (g : Int) - 999 ≤ D := by linarith
  have hD2 : D ≤ 12280 * (g : Int) := by linarith
  have hF1 : 8197 ≤ F := by
    by_contra hc
    push_neg at hc
    have hcc : F ≤ 8196 := by omega
    have hmul : F * (g : Int) ≤ 8196 * g := by
      calc F * (g : Int) ≤ 8196 * (g : Int) :=
            mul_le_mul_of_nonneg_right hcc (by omega)
        _ = 8196 * g := by ring
    linarith
  have hF2 : F ≤ 12280 := by
    by_contra hc
    push_neg at hc
    have hcc : (12281 : Int) ≤ F := by omega
    have hmul : (12281 : Int) * g ≤ F * g :=
      mul_le_mul_of_nonneg_right hcc (by omega)
    linarith
  have hF0 : (0 : Int) ≤ F := by omega
  set Fn : Nat := F.toNat with hFndef
  have hFnc : (Fn : Int) = F := Int.toNat_of_nonneg hF0
  have hFn1 : 8197 ≤ Fn := by omega
  have hFn2 : Fn ≤ 12280 := by omega
  have hbits : trip_bits g o t = Fn / 16 % 256 := by
    unfold trip_bits
    rw [htf]
    unfold u16_of_i32
    rw [show F % 65536 = F from by omega, ← hFndef]
    rw [Nat.shiftRight_eq_div_pow]
    rw [show (2 : Nat) ^ 4 = 16 from by norm_num]
    exact and255_eq_mod _ (by omega)
  have hbits256 : Fn / 16 % 256 < 256 := Nat.mod_lt _ (by norm_num)
  have hcodeq : 8200 ||| (trip_bits g o t <<< 4) = 8200 + Fn / 16 % 256 * 16 := by
    rw [hbits]
    exact lor8200 _ hbits256
  rw [hcodeq, show 8200 + Fn / 16 % 256 * 16 = Fn / 16 * 16 + 8 from by omega]
  set cd : Nat := Fn / 16 * 16 + 8 with hcddef
  have hcd1 : 4096 ≤ cd := by omega
  have hcd2 : cd ≤ 12280 := by omega
  have hcdF1 : (Fn : Int) - 7 ≤ (cd : Int) := by omega
  have hcdF2 : (cd : Int) ≤ (Fn : Int) + 8 := by omega
  obtain ⟨hachl, hachr⟩ := apply_floor g o cd hg1 hg2 ho1 ho2 hcd1 hcd2
  set ach := AdcTransferFunction.apply { gain := g, offset := o } cd with hachdef
  have hm1 : (cd : Int) * g ≤ F * g + 8 * g := by
    calc (cd : Int) * g ≤ ((Fn : Int) + 8) * g :=
          mul_le_mul_of_nonneg_right hcdF2 (by omega)
      _ = (Fn : Int) * g + 8 * g := by ring
      _ = F * g + 8 * g := by rw [hFnc]
  have hm2 : F * (g : Int) - 7 * g ≤ (cd : Int) * g := by
    have h := mul_le_mul_of_nonneg_right hcdF1 (show (0 : Int) ≤ g by omega)
    calc F * (g : Int) - 7 * g = ((Fn : Int) - 7) * g := by rw [hFnc]; ring
      _ ≤ (cd : Int) * g := h
  push_cast
  constructor
  · linarith
  · linarith

/-- The fixture configuration with the UV target sitting exactly on the
achievable window minimum. -/
def cfgBoundary : Config := { cfgFixture with uv_threshold := 1591 }

/-- C9 counterexample: with the fixture calibration (gain 378 µV/LSB, offset
43 mV) the achievable UV window is [1591, 3133] mV.  The target 1591 mV is
inside that window and `init` accepts it, yet the achieved UV threshold
reported in `CalculatedValues` is 3133 mV — the window maximum, 1542 mV away
from the target, vastly more than one quantization step (gain/1000 =
0.378 mV): truncating the ideal ADC code to 4095 makes the extracted 8-bit
code wrap to the top of the window. -/
theorem C9_counterexample :
    (init devFresh0 trimRegs cfgBoundary).1 =
      .ok { ocdscd_range_used := .Upper, scd_threshold := 199,
            ocd_threshold := 100, uv_threshold := 3133, ov_threshold := 4176 } ∧
    (init devFresh0 trimRegs cfgBoundary).2.1.adc_gain = 378 ∧
    uv_voltage_range (init devFresh0 trimRegs cfgBoundary).2.1 = (1591, 3133) ∧
    cfgBoundary.uv_threshold = 1591 ∧
    1000 * (3133 - 1591) > 378 := by
  decide

/-- C9 (amended): for the calibrations `init` can produce (gain in
[365, 396] µV/LSB, offset an i8), and UV/OV targets validated by `init`
against the windows `uv_voltage_range`/`ov_voltage_range` (`apply 0x1000
.. apply 0x1FF0` and `apply 0x2008 .. apply 0x2FF8`): decoding the 8-bit
code back through the transfer function (the `CalculatedValues` fields of
`init`) is within one 8-bit-code quantization step — 16·gain µV, not
gain µV — plus 1 mV truncation slack of the target.  For UV the target must
moreover lie strictly above the window minimum (at the exact minimum the
truncated code can wrap to the window maximum, see `C9_counterexample`) and
the achieved value never exceeds the target; for OV any in-window target
stays within 8·gain µV + 1 mV on either side. -/
theorem C9_amended (g : Nat) (o : Int) (tu tv : Nat)
    (hg1 : 365 ≤ g) (hg2 : g ≤ 396) (ho1 : -128 ≤ o) (ho2 : o ≤ 127)
    (huv1 : AdcTransferFunction.apply { gain := g, offset := o } 4096 < tu)
    (huv2 : tu ≤ AdcTransferFunction.apply { gain := g, offset := o } 8176)
    (hov1 : AdcTransferFunction.apply { gain := g, offset := o } 8200 ≤ tv)
    (hov2 : tv ≤ AdcTransferFunction.apply { gain := g, offset := o } 12280) :
    (AdcTransferFunction.apply { gain := g, offset := o }
        (4096 ||| (trip_bits g o tu <<< 4)) ≤ tu ∧
      1000 * (tu - AdcTransferFunction.apply { gain := g, offset := o }
        (4096 ||| (trip_bits g o tu <<< 4))) ≤ 16 * g + 998) ∧
    (-(8 * (g : Int) + 998) ≤
        1000 * ((tv : Int) - AdcTransferFunction.apply { gain := g, offset := o }
          (8200 ||| (trip_bits g o tv <<< 4))) ∧
      1000 * ((tv : Int) - AdcTransferFunction.apply { gain := g, offset := o }
          (8200 ||| (trip_bits g o tv <<< 4))) ≤ 8 * (g : Int) + 998) :=
  ⟨uv_roundtrip g o tu hg1 hg2 ho1 ho2 huv1 huv2,
   ov_roundtrip g o tv hg1 hg2 ho1 ho2 hov1 hov2⟩

/-- C9 witness: the amended theorem at the fixture calibration with the
fixture targets (UV 2000 mV, OV 4175 mV). -/
theorem C9_witness :
    (AdcTransferFunction.apply { gain := 378, offset := 43 } 4096 < 2000 ∧
     2000 ≤ AdcTransferFunction.apply { gain := 378, offset := 43 } 8176 ∧
     AdcTransferFunction.apply { gain := 378, offset := 43 } 8200 ≤ 4175 ∧
     4175 ≤ AdcTransferFunction.apply { gain := 378, offset := 43 } 12280) ∧
    ((AdcTransferFunction.apply { gain := 378, offset := 43 }
        (4096 ||| (trip_bits 378 43 2000 <<< 4)) ≤ 2000 ∧
      1000 * (2000 - AdcTransferFunction.apply { gain := 378, offset := 43 }
        (4096 ||| (trip_bits 378 43 2000 <<< 4))) ≤ 16 * 378 + 998) ∧
     (-(8 * (378 : Int) + 998) ≤
        1000 * ((4175 : Int) - AdcTransferFunction.apply { gain := 378, offset := 43 }
          (8200 ||| (trip_bits 378 43 4175 <<< 4))) ∧
      1000 * ((4175 : Int) - AdcTransferFunction.apply { gain := 378, offset := 43 }
          (8200 ||| (trip_bits 378 43 4175 <<< 4))) ≤ 8 * (378 : Int) + 998)) :=
  ⟨⟨by decide, by decide, by decide, by decide⟩,
   C9_amended 378 43 2000 4175 (by norm_num) (by norm_num) (by norm_num)
     (by norm_num) (by decide) (by decide) (by decide) (by decide)⟩

end BQ769x0V
